import Mathlib

/-!
Verification of the SSE streaming subsystem of the moi-go-sdk client library.

The Go source under scrutiny is the data-analysis streaming reader:
`timeoutReader.Read`/`Close`, `DataAnalysisStream.readLine`/`ReadEvent`/`Close`,
`RawClient.AnalyzeDataStream` and `RawClient.CancelAnalyze`.  Go strings are
modelled as Lean `String` (rune lists), byte slices as `String`/`List Char`,
`nil` pointers as `Option`, and errors as explicit sum results.  Stateful
reading is modelled by passing the remaining input explicitly and returning
the unconsumed remainder.
-/

namespace MoiSdk

/-! Models of Go string primitives (strings.HasPrefix / TrimPrefix / Contains / TrimSpace / Join) -/

/-- Model of Go `strings.HasPrefix(s, pre)`. -/
def hasPre (s pre : String) : Bool :=
  decide (pre.data <+: s.data)

/-- Model of Go `strings.TrimPrefix(s, pre)`: removes `pre` if present, else returns `s`. -/
def stripPre (s pre : String) : String :=
  if hasPre s pre then String.mk (s.data.drop pre.data.length) else s

/-- Model of Go `strings.Contains(s, sub)`. -/
def goContains (s sub : String) : Bool :=
  decide (sub.data <:+: s.data)

/-- Model of Go `unicode.IsSpace` restricted to the Latin-1 range, which is all
`strings.TrimSpace` needs for the validation claims (space, tab, newline,
vertical tab, form feed, carriage return, NEL, NBSP). -/
def isGoSpace (c : Char) : Bool :=
  c == ' ' || c == '\t' || c == '\n' || c == Char.ofNat 11 || c == Char.ofNat 12 ||
    c == '\r' || c == Char.ofNat 133 || c == Char.ofNat 160

/-- Model of Go `strings.TrimSpace(s)`. -/
def goTrimSpace (s : String) : String :=
  String.mk (((s.data.dropWhile isGoSpace).reverse.dropWhile isGoSpace).reverse)

/-- Model of Go `strings.Join(elems, sep)`. -/
def goJoin (elems : List String) (sep : String) : String :=
  match elems with
  | [] => ""
  | [x] => x
  | x :: xs => x ++ sep ++ goJoin xs sep

/-! JSON (model of Go `encoding/json` syntax checking and object decoding)

`json.Unmarshal` first validates the whole input against the JSON grammar
(`checkValid`); on a syntax error nothing is decoded.  On valid input it
decodes; unmarshalling into a struct only sets fields from a top-level JSON
object.  The grammar below is standard JSON. -/

/-- A parsed JSON value.  Number lexemes carry no payload: the stream reader
never reads numeric values, only validity and string fields matter. -/
inductive Json where
  | null
  | bool (b : Bool)
  | num
  | str (s : String)
  | arr (elems : List Json)
  | obj (fields : List (String × Json))
deriving Repr

/-- Skip JSON whitespace. -/
def skipWs : List Char → List Char
  | c :: rest =>
    if c == ' ' || c == '\t' || c == '\n' || c == '\r' then skipWs rest else c :: rest
  | [] => []

/-- Hex digit value, for `\uXXXX` escapes. -/
def hexVal (c : Char) : Option Nat :=
  if '0' ≤ c ∧ c ≤ '9' then some (c.toNat - 48)
  else if 'a' ≤ c ∧ c ≤ 'f' then some (c.toNat - 87)
  else if 'A' ≤ c ∧ c ≤ 'F' then some (c.toNat - 55)
  else none

/-- Parse the body of a JSON string (after the opening quote), returning the
unescaped content and the input following the closing quote.  `acc` holds the
content read so far, reversed. -/
def parseStringBody : List Char → List Char → Option (String × List Char)
  | acc, c :: rest =>
    if c == '"' then some (String.mk acc.reverse, rest)
    else if c == '\\' then
      match rest with
      | e :: rest2 =>
        if e == '"' then parseStringBody ('"' :: acc) rest2
        else if e == '\\' then parseStringBody ('\\' :: acc) rest2
        else if e == '/' then parseStringBody ('/' :: acc) rest2
        else if e == 'b' then parseStringBody (Char.ofNat 8 :: acc) rest2
        else if e == 'f' then parseStringBody (Char.ofNat 12 :: acc) rest2
        else if e == 'n' then parseStringBody ('\n' :: acc) rest2
        else if e == 'r' then parseStringBody ('\r' :: acc) rest2
        else if e == 't' then parseStringBody ('\t' :: acc) rest2
        else if e == 'u' then
          match rest2 with
          | h1 :: h2 :: h3 :: h4 :: rest3 =>
            match hexVal h1, hexVal h2, hexVal h3, hexVal h4 with
            | some a, some b, some c2, some d =>
              parseStringBody (Char.ofNat (((a * 16 + b) * 16 + c2) * 16 + d) :: acc) rest3
            | _, _, _, _ => none
          | _ => none
        else none
      | [] => none
    else if c.toNat < 32 then none
    else parseStringBody (c :: acc) rest
  | _, [] => none

/-- Parse the optional exponent part of a JSON number; input is positioned
after the integer/fraction part. -/
def numExp (cs : List Char) : Option (List Char) :=
  match cs with
  | c :: rest =>
    if c == 'e' || c == 'E' then
      let rest2 := match rest with
        | s :: r2 => if s == '+' || s == '-' then r2 else rest
        | [] => rest
      match rest2 with
      | d :: _ => if d.isDigit then some (rest2.dropWhile Char.isDigit) else none
      | [] => none
    else some cs
  | [] => some cs

/-- Parse the optional fraction part of a JSON number, then the exponent. -/
def numFrac (cs : List Char) : Option (List Char) :=
  match cs with
  | c :: rest =>
    if c == '.' then
      match rest with
      | d :: _ => if d.isDigit then numExp (rest.dropWhile Char.isDigit) else none
      | [] => none
    else numExp cs
  | [] => numExp cs

/-- Parse a JSON number lexeme (`-?(0|[1-9][0-9]*)(\.[0-9]+)?([eE][+-]?[0-9]+)?`),
returning the remaining input. -/
def parseNumber (cs : List Char) : Option (List Char) :=
  let cs1 := match cs with
    | c :: rest => if c == '-' then rest else cs
    | [] => cs
  match cs1 with
  | c :: rest =>
    if c == '0' then numFrac rest
    else if c.isDigit then numFrac (rest.dropWhile Char.isDigit)
    else none
  | [] => none

/-- Result type of a single parsing layer. -/
def JP (α : Type) : Type := List Char → Option (α × List Char)

/-- Fuel-indexed JSON parsers: a parser for one value, one for the items of a
non-empty array (positioned at the first item), and one for the members of a
non-empty object (positioned at the first key).  Each level only calls the
previous level, so the triple is structurally recursive in the fuel; any fuel
of at least twice the input length is enough. -/
def jsonParsers : Nat → JP Json × JP (List Json) × JP (List (String × Json))
  | 0 => (fun _ => none, fun _ => none, fun _ => none)
  | fuel + 1 =>
    let prev := jsonParsers fuel
    let pv : JP Json := fun cs =>
      match skipWs cs with
      | [] => none
      | c :: rest =>
        if c == Char.ofNat 123 then
          match skipWs rest with
          | [] => none
          | d :: rest2 =>
            if d == Char.ofNat 125 then some (.obj [], rest2)
            else
              match prev.2.2 (d :: rest2) with
              | some (fields, rest3) => some (.obj fields, rest3)
              | none => none
        else if c == '[' then
          match skipWs rest with
          | [] => none
          | d :: rest2 =>
            if d == ']' then some (.arr [], rest2)
            else
              match prev.2.1 (d :: rest2) with
              | some (items, rest3) => some (.arr items, rest3)
              | none => none
        else if c == '"' then
          match parseStringBody [] rest with
          | some (s, rest2) => some (.str s, rest2)
          | none => none
        else if c == 't' then
          match rest with
          | 'r' :: 'u' :: 'e' :: rest2 => some (.bool true, rest2)
          | _ => none
        else if c == 'f' then
          match rest with
          | 'a' :: 'l' :: 's' :: 'e' :: rest2 => some (.bool false, rest2)
          | _ => none
        else if c == 'n' then
          match rest with
          | 'u' :: 'l' :: 'l' :: rest2 => some (.null, rest2)
          | _ => none
        else if c == '-' || c.isDigit then
          match parseNumber (c :: rest) with
          | some rest2 => some (.num, rest2)
          | none => none
        else none
    let pa : JP (List Json) := fun cs =>
      match prev.1 cs with
      | none => none
      | some (v, rest) =>
        match skipWs rest with
        | [] => none
        | c :: rest2 =>
          if c == ',' then
            match prev.2.1 rest2 with
            | some (vs, rest3) => some (v :: vs, rest3)
            | none => none
          else if c == ']' then some ([v], rest2)
          else none
    let po : JP (List (String × Json)) := fun cs =>
      match cs with
      | [] => none
      | c :: rest =>
        if c == '"' then
          match parseStringBody [] rest with
          | none => none
          | some (key, rest2) =>
            match skipWs rest2 with
            | [] => none
            | d :: rest3 =>
              if d == ':' then
                match prev.1 rest3 with
                | none => none
                | some (v, rest4) =>
                  match skipWs rest4 with
                  | [] => none
                  | e :: rest5 =>
                    if e == ',' then
                      match prev.2.2 (skipWs rest5) with
                      | some (fields, rest6) => some ((key, v) :: fields, rest6)
                      | none => none
                    else if e == Char.ofNat 125 then some ([(key, v)], rest5)
                    else none
              else none
        else none
    (pv, pa, po)

/-- Parse a complete JSON document, the model of Go `json.checkValid` plus
value decoding: `some v` iff the whole input is syntactically valid JSON. -/
def jsonParse (s : String) : Option Json :=
  match (jsonParsers (2 * s.data.length + 4)).1 s.data with
  | some (v, rest) => if skipWs rest = [] then some v else none
  | none => none

/-! Event data model and `ReadEvent` state machine -/

/-- Modelled from the spec: the `DataAnalysisStreamEvent` struct declaration is
not under `src/` (only its uses in `ReadEvent` and the tests are).  Spec section
3 gives its shape: optional `Type`, `Source`, `StepType`, `StepName` tags
populated from the JSON keys of the same purpose (`type`, `source`,
`step_type`, `step_name`, as the tests exercise), and `RawData` holding the
exact accumulated payload bytes, never settable from the JSON body.  The Go
field `Type` is spelled `type` here because `Type` is reserved in Lean. -/
structure DataAnalysisStreamEvent where
  type : String
  Source : String
  StepType : String
  StepName : String
  RawData : String
deriving Repr, DecidableEq

/-- The zero value of the event struct (`var event DataAnalysisStreamEvent`). -/
def emptyEvent : DataAnalysisStreamEvent :=
  { type := "", Source := "", StepType := "", StepName := "", RawData := "" }

/-- Apply one decoded top-level JSON object member to the event struct, the
way `json.Unmarshal` fills recognized string fields and ignores everything
else. -/
def applyJsonField (e : DataAnalysisStreamEvent) (kv : String × Json) :
    DataAnalysisStreamEvent :=
  match kv with
  | (k, .str v) =>
    if k = "type" then { e with type := v }
    else if k = "source" then { e with Source := v }
    else if k = "step_type" then { e with StepType := v }
    else if k = "step_name" then { e with StepName := v }
    else e
  | _ => e

/-- Model of `json.Unmarshal([]byte(dataStr), &event)`: on syntactically
invalid input, or valid input whose top level is not an object, the struct is
left untouched; on a top-level object the recognized string members are
applied in order (for duplicate keys the last wins, as in Go). -/
def unmarshalEvent (e : DataAnalysisStreamEvent) (dataStr : String) :
    DataAnalysisStreamEvent :=
  match jsonParse dataStr with
  | some (.obj fields) => fields.foldl applyJsonField e
  | _ => e

/-- The dispatch step of `ReadEvent` (the shared body of the blank-line case
and the EOF flush, source lines 212-227 and 235-250): join the accumulated
`data:` lines with a newline, record them as `RawData`, attempt the JSON
decode, and let a recorded non-empty `event:` field override `Type`. -/
def dispatchEvent (dataLines : List String) (eventType : String) :
    DataAnalysisStreamEvent :=
  let dataStr := goJoin dataLines "\n"
  let e1 := unmarshalEvent { emptyEvent with RawData := dataStr } dataStr
  if eventType = "" then e1 else { e1 with type := eventType }

/-- Result of one `ReadEvent` call: an event, or the `io.EOF` sentinel. -/
inductive ReadResult where
  | event (e : DataAnalysisStreamEvent)
  | eof
deriving Repr, DecidableEq

/-- The `ReadEvent` loop (source lines 208-262) over the sequence of lines the
line reader will deliver; an exhausted list models `readLine` returning
`io.EOF`.  Returns the call's result and the lines left unconsumed for the
next call.  `dataLines` and `eventType` are the loop's accumulators, `[]` and
`""` at the start of each call. -/
def readEventLoop : List String → List String → String → ReadResult × List String
  | [], dataLines, eventType =>
    if dataLines = [] then (.eof, [])
    else (.event (dispatchEvent dataLines eventType), [])
  | line :: rest, dataLines, eventType =>
    if line = "" then
      if dataLines = [] then readEventLoop rest dataLines eventType
      else (.event (dispatchEvent dataLines eventType), rest)
    else if hasPre line "data: " then
      readEventLoop rest (dataLines ++ [stripPre line "data: "]) eventType
    else if hasPre line "event: " then
      readEventLoop rest dataLines (stripPre line "event: ")
    else
      readEventLoop rest dataLines eventType

/-- One `ReadEvent` call on the given remaining input lines. -/
def readEvent (lines : List String) : ReadResult × List String :=
  readEventLoop lines [] ""

/-! The readLine dynamic accumulation over `bufio.Reader.ReadLine` -/

/-- One response of the underlying `bufio.Reader.ReadLine` call: a chunk of a
line together with Go's `isPrefix` flag (`truncated` here: `true` means the
line was longer than the buffer and continues), or an error.  `io.EOF` is kept
separate from other errors because `readLine` treats it specially. -/
inductive ChunkOutcome where
  | ok (part : List Char) (truncated : Bool)
  | eofSig
  | errSig (msg : String)
deriving Repr, DecidableEq

/-- Result of one `readLine` call. -/
inductive ReadLineResult where
  | line (s : String)
  | timeoutErr (msg : String)
  | eofErr
  | otherErr (msg : String)
deriving Repr, DecidableEq

/-- The accumulation loop of `readLine` (source lines 169-200) over the
sequence of underlying `ReadLine` responses; an exhausted list behaves as
`io.EOF`.  `acc` is the `line` byte slice being grown; a chunk with the
truncation flag set keeps the loop reading, a complete chunk returns the full
concatenation.  An error whose message contains `read timeout` propagates at
once; `io.EOF` with a non-empty accumulator still returns the partial line. -/
def readLineLoop : List ChunkOutcome → List Char → ReadLineResult × List ChunkOutcome
  | [], acc =>
    if acc = [] then (.eofErr, []) else (.line (String.mk acc), [])
  | .ok part truncated :: rest, acc =>
    if truncated then readLineLoop rest (acc ++ part)
    else (.line (String.mk (acc ++ part)), rest)
  | .eofSig :: rest, acc =>
    if acc = [] then (.eofErr, rest) else (.line (String.mk acc), rest)
  | .errSig msg :: rest, _acc =>
    if goContains msg "read timeout" then (.timeoutErr msg, rest)
    else (.otherErr msg, rest)

/-- Model of the `bufio.Reader.ReadLine` contract for a single line of content
`l` read through a buffer of size `bufSize` (`bufio.NewReaderSize` never uses
a buffer smaller than 16 bytes): full-buffer chunks flagged truncated until
the remainder fits. -/
def chunkLine (bufSize : Nat) (l : List Char) : List ChunkOutcome :=
  if l.length ≤ max bufSize 16 then [.ok l false]
  else .ok (l.take (max bufSize 16)) true :: chunkLine bufSize (l.drop (max bufSize 16))
termination_by l.length
decreasing_by
  simp only [List.length_drop]
  have h16 := Nat.le_max_right bufSize 16
  omega

/-! The timeoutReader inactivity-timeout race -/

/-- Result of one underlying `Read`: byte count and optional error. -/
structure ReadOutcome where
  n : Nat
  err : Option String
deriving Repr, DecidableEq

/-- The timeout error built at source line 100 (`fmt.Errorf("read timeout: no
data received within %v", r.timeout)`); the duration is rendered abstractly as
its numeric value. -/
def timeoutErrMsg (timeout : Int) : String :=
  "read timeout: no data received within " ++ toString timeout

/-- One `timeoutReader.Read` call (source lines 58-102).  Time is modelled by
`delay`, the time until the underlying read would deliver, measured from the
start of this call — each call races its own fresh `context.WithTimeout`
window against the underlying read, which is exactly how the window resets on
every successful read.  Non-positive timeout is a direct passthrough; if the
underlying read wins the race its outcome is returned; if the deadline
elapses first the call returns zero bytes and the timeout error. -/
def timeoutReaderRead (timeout : Int) (delay : Int) (u : ReadOutcome) : ReadOutcome :=
  if timeout ≤ 0 then u
  else if delay < timeout then u
  else { n := 0, err := some (timeoutErrMsg timeout) }

/-- A sequence of `timeoutReader.Read` calls: each call carries its own
inactivity delay and underlying outcome, and is raced independently — the
window restarts at every call. -/
def runTimeoutReads (timeout : Int) (calls : List (Int × ReadOutcome)) :
    List ReadOutcome :=
  calls.map (fun c => timeoutReaderRead timeout c.1 c.2)

/-! Stream lifecycle: `AnalyzeDataStream`, `CancelAnalyze`, `Close` -/

/-- An `io.ReadCloser` handle: its byte content plus the error its `Close`
reports. -/
structure StreamBody where
  content : String
  closeErr : Option String
deriving Repr, DecidableEq

/-- Modelled from the spec: the `DataAnalysisRequest` struct declaration is
not under `src/`; spec sections 3 and 4.4 only require the primary `Question`
text for validation, the rest of the payload is opaque. -/
structure DataAnalysisRequest where
  Question : String
deriving Repr, DecidableEq

/-- Modelled from the spec: the `CancelAnalyzeRequest` struct declaration is
not under `src/`; spec section 4.4 only requires the target `RequestID`. -/
structure CancelAnalyzeRequest where
  RequestID : String
deriving Repr, DecidableEq

/-- Errors surfaced by the lifecycle operations: `ErrNilRequest`, the local
validation failures, the structured `HTTPError` of `errors.go` (status code
plus raw body), and the content-type mismatch error. -/
inductive SdkError where
  | nilRequest
  | validation (msg : String)
  | httpError (statusCode : Nat) (body : String)
  | contentTypeError (msg : String)
deriving Repr, DecidableEq

/-- An HTTP response as `streamClient.Do` delivers it: status code, headers,
and the live body. -/
structure HttpResponse where
  statusCode : Nat
  headers : List (String × String)
  body : StreamBody
deriving Repr, DecidableEq

/-- Model of `http.Header.Get`: the value of the first matching key, or the
empty string. -/
def headerGet (headers : List (String × String)) (key : String) : String :=
  match headers.find? (fun p => p.1 == key) with
  | some p => p.2
  | none => ""

/-- The stream session (`DataAnalysisStream` struct): live body, cloned
headers, status code.  The buffer-size and timeout options are plumbing not
needed by the claims. -/
structure DataAnalysisStream where
  Body : Option StreamBody
  Header : List (String × String)
  StatusCode : Nat
deriving Repr, DecidableEq

/-- Model of `AnalyzeDataStream` (source lines 309-396) up to its response handling.
`resp` is the response the one network call would deliver.  The second
component records whether the network call was reached (`streamClient.Do`,
line 368): validation failures return before it.  Request marshalling, header
assembly and URL building are pure plumbing between validation and the call
and carry no claim-relevant behavior. -/
def analyzeDataStream (req : Option DataAnalysisRequest) (resp : HttpResponse) :
    Except SdkError DataAnalysisStream × Bool :=
  match req with
  | none => (.error .nilRequest, false)
  | some r =>
    if goTrimSpace r.Question = "" then
      (.error (.validation "question cannot be empty"), false)
    else if resp.statusCode < 200 ∨ 300 ≤ resp.statusCode then
      (.error (.httpError resp.statusCode resp.body.content), true)
    else
      let contentType := headerGet resp.headers "Content-Type"
      if goContains contentType "text/event-stream" = false ∧
          goContains contentType "text/plain" = false then
        (.error (.contentTypeError
          ("unexpected content type: " ++ contentType ++ ", body: " ++
            resp.body.content)), true)
      else
        (.ok { Body := some resp.body, Header := resp.headers,
               StatusCode := resp.statusCode }, true)

/-- The validation prefix of `CancelAnalyze` (source lines 415-421): nil
request and blank id fail before the network call; otherwise the id is posted
as a query parameter.  The second component records whether the network call
was reached. -/
def cancelAnalyze (req : Option CancelAnalyzeRequest) : Except SdkError Unit × Bool :=
  match req with
  | none => (.error .nilRequest, false)
  | some r =>
    if goTrimSpace r.RequestID = "" then
      (.error (.validation "request_id cannot be empty"), false)
    else (.ok (), true)

/-- Model of `DataAnalysisStream.Close` (source lines 128-133): nil receiver or nil
body return nil; otherwise the close is delegated to the body. -/
def DataAnalysisStream.Close (s : Option DataAnalysisStream) : Option String :=
  match s with
  | none => none
  | some st =>
    match st.Body with
    | none => none
    | some b => b.closeErr

/-- The `timeoutReader` struct fields relevant to `Close`. -/
structure TimeoutReader where
  reader : Option StreamBody
  timeout : Int
deriving Repr, DecidableEq

/-- Model of `timeoutReader.Close` (source lines 104-109): delegates to the underlying
reader when present, else a nil no-op. -/
def TimeoutReader.Close (r : TimeoutReader) : Option String :=
  match r.reader with
  | some b => b.closeErr
  | none => none

/-! Helper lemmas: classification of SSE field lines with an abstract payload -/

theorem hasPre_append (pre s : String) : hasPre (pre ++ s) pre = true := by
  simp only [hasPre, String.data_append, decide_eq_true_eq]
  exact List.prefix_append _ _

theorem dataLine_ne_empty (d : String) : ("data: " ++ d) ≠ "" := by
  intro h
  have hd := congrArg String.data h
  rw [String.data_append] at hd
  rw [show ("data: ").data = 'd' :: "ata: ".data from rfl] at hd
  simp at hd

theorem eventLine_ne_empty (X : String) : ("event: " ++ X) ≠ "" := by
  intro h
  have hd := congrArg String.data h
  rw [String.data_append] at hd
  rw [show ("event: ").data = 'e' :: "vent: ".data from rfl] at hd
  simp at hd

theorem eventLine_not_dataPre (X : String) : hasPre ("event: " ++ X) "data: " = false := by
  simp only [hasPre, String.data_append, decide_eq_false_iff_not]
  intro h
  rw [List.cons_append, List.cons_prefix_cons] at h
  exact absurd h.1 (by decide)

theorem stripPre_append (pre s : String) : stripPre (pre ++ s) pre = s := by
  rw [stripPre, if_pos (hasPre_append pre s), String.data_append, List.drop_left]

/-! Helper lemmas: single steps of the `ReadEvent` loop -/

theorem readEventLoop_eventLine (X : String) (rest dataLines : List String)
    (eventType : String) :
    readEventLoop (("event: " ++ X) :: rest) dataLines eventType
      = readEventLoop rest dataLines X := by
  rw [readEventLoop, if_neg (eventLine_ne_empty X)]
  rw [if_neg (by rw [eventLine_not_dataPre X]; exact Bool.false_ne_true)]
  rw [if_pos (hasPre_append "event: " X), stripPre_append]

theorem readEventLoop_dataLine (d : String) (rest dataLines : List String)
    (eventType : String) :
    readEventLoop (("data: " ++ d) :: rest) dataLines eventType
      = readEventLoop rest (dataLines ++ [d]) eventType := by
  rw [readEventLoop, if_neg (dataLine_ne_empty d)]
  rw [if_pos (hasPre_append "data: " d), stripPre_append]

theorem readEventLoop_blank_dispatch (rest : List String) {dataLines : List String}
    (eventType : String) (h : dataLines ≠ []) :
    readEventLoop ("" :: rest) dataLines eventType
      = (.event (dispatchEvent dataLines eventType), rest) := by
  rw [readEventLoop, if_pos rfl, if_neg h]

theorem readEventLoop_blank_skip (rest : List String) (eventType : String) :
    readEventLoop ("" :: rest) [] eventType = readEventLoop rest [] eventType := by
  rw [readEventLoop, if_pos rfl, if_pos rfl]

theorem readEventLoop_eof_flush {dataLines : List String} (eventType : String)
    (h : dataLines ≠ []) :
    readEventLoop [] dataLines eventType
      = (.event (dispatchEvent dataLines eventType), []) := by
  rw [readEventLoop, if_neg h]

theorem readEventLoop_mapData (ds : List String) : ∀ (rest dataLines : List String)
    (eventType : String),
    readEventLoop ((ds.map (fun d => "data: " ++ d)) ++ rest) dataLines eventType
      = readEventLoop rest (dataLines ++ ds) eventType := by
  induction ds with
  | nil => intro rest dataLines eventType; simp
  | cons d ds ih =>
    intro rest dataLines eventType
    rw [List.map_cons, List.cons_append, readEventLoop_dataLine, ih]
    simp [List.append_assoc]

/-! Helper lemmas: what the dispatch step does to each field -/

theorem applyJsonField_RawData (e : DataAnalysisStreamEvent) (kv : String × Json) :
    (applyJsonField e kv).RawData = e.RawData := by
  rcases kv with ⟨k, v⟩
  cases v <;> first
    | rfl
    | (simp only [applyJsonField]; split_ifs <;> rfl)

theorem foldl_applyJsonField_RawData (fields : List (String × Json)) :
    ∀ e : DataAnalysisStreamEvent, (fields.foldl applyJsonField e).RawData = e.RawData := by
  induction fields with
  | nil => intro e; rfl
  | cons kv fs ih => intro e; rw [List.foldl_cons, ih, applyJsonField_RawData]

theorem unmarshalEvent_RawData (e : DataAnalysisStreamEvent) (s : String) :
    (unmarshalEvent e s).RawData = e.RawData := by
  rw [unmarshalEvent]
  cases h : jsonParse s with
  | none => rfl
  | some v => cases v <;> first | rfl | exact foldl_applyJsonField_RawData _ e

theorem unmarshalEvent_parse_fail {s : String} (h : jsonParse s = none)
    (e : DataAnalysisStreamEvent) : unmarshalEvent e s = e := by
  rw [unmarshalEvent, h]

theorem dispatchEvent_RawData (dataLines : List String) (eventType : String) :
    (dispatchEvent dataLines eventType).RawData = goJoin dataLines "\n" := by
  simp only [dispatchEvent]
  split_ifs with h
  · rw [unmarshalEvent_RawData]
  · show (unmarshalEvent _ _).RawData = _
    rw [unmarshalEvent_RawData]

theorem dispatchEvent_type_override (dataLines : List String) {eventType : String}
    (h : eventType ≠ "") : (dispatchEvent dataLines eventType).type = eventType := by
  simp only [dispatchEvent]
  rw [if_neg h]

theorem dispatchEvent_parse_fail (dataLines : List String) (eventType : String)
    (h : jsonParse (goJoin dataLines "\n") = none) :
    dispatchEvent dataLines eventType
      = { type := eventType, Source := "", StepType := "", StepName := "",
          RawData := goJoin dataLines "\n" } := by
  simp only [dispatchEvent]
  rw [unmarshalEvent_parse_fail h]
  split_ifs with het
  · rw [het]; rfl
  · rfl

/-- Helper for dispatching a single-line data block: the joined payload is the
line itself, and a non-empty explicit event type overrides whatever the JSON
decode produced. -/
theorem dispatchEvent_single (J : String) {X : String} (hX : X ≠ "")
    (e1 : DataAnalysisStreamEvent)
    (he : unmarshalEvent { emptyEvent with RawData := J } J = e1) :
    dispatchEvent [J] X = { e1 with type := X } := by
  simp only [dispatchEvent, goJoin]
  rw [he, if_neg hX]

/-- Claim C1: for a well-formed SSE block `event: X` / `data: {"a":1}` / blank
line, one ReadEvent call returns exactly one event with Type `X` and RawData
the JSON body; and when the JSON body itself carries a `type` key, the
explicit `event:` field value still wins over the JSON value. -/
theorem c1_event_type_field_wins (X : String) (rest : List String) (hX : X ≠ "") :
    readEvent (("event: " ++ X) :: ("data: " ++ "\x7b\"a\":1\x7d") :: "" :: rest)
      = (.event
          { type := X, Source := "", StepType := "", StepName := "",
            RawData := "\x7b\"a\":1\x7d" }, rest)
    ∧ readEvent (("event: " ++ X) :: ("data: " ++ "\x7b\"type\":\"inner\"\x7d") :: "" :: rest)
      = (.event
          { type := X, Source := "", StepType := "", StepName := "",
            RawData := "\x7b\"type\":\"inner\"\x7d" }, rest) := by
  constructor
  · rw [readEvent, readEventLoop_eventLine, readEventLoop_dataLine, List.nil_append,
      readEventLoop_blank_dispatch rest X (by simp),
      dispatchEvent_single _ hX
        { type := "", Source := "", StepType := "", StepName := "",
          RawData := "\x7b\"a\":1\x7d" } (by decide)]
  · rw [readEvent, readEventLoop_eventLine, readEventLoop_dataLine, List.nil_append,
      readEventLoop_blank_dispatch rest X (by simp),
      dispatchEvent_single _ hX
        { type := "inner", Source := "", StepType := "", StepName := "",
          RawData := "\x7b\"type\":\"inner\"\x7d" } (by decide)]

theorem c1_event_type_field_wins_witness :
    ("X" : String) ≠ ""
    ∧ readEvent (("event: " ++ "X") :: ("data: " ++ "\x7b\"a\":1\x7d") :: "" :: [])
      = (.event
          { type := "X", Source := "", StepType := "", StepName := "",
            RawData := "\x7b\"a\":1\x7d" }, []) :=
  ⟨by decide, (c1_event_type_field_wins "X" [] (by decide)).1⟩

/-- Claim C2: when the stream ends while `data:` lines are pending and no
terminating blank line was seen, the EOF branch performs the ordinary dispatch
once as a final flush and returns that event (nothing is consumed afterwards);
the next ReadEvent call, on the exhausted stream, returns the end-of-stream
sentinel. -/
theorem c2_eof_flush_once (dataLines : List String) (eventType : String)
    (h : dataLines ≠ []) :
    readEventLoop [] dataLines eventType
      = (.event (dispatchEvent dataLines eventType), [])
    ∧ readEvent (dataLines.map (fun d => "data: " ++ d))
      = (.event (dispatchEvent dataLines ""), [])
    ∧ readEvent [] = (.eof, []) := by
  refine ⟨readEventLoop_eof_flush eventType h, ?_, rfl⟩
  rw [readEvent, show dataLines.map (fun d => "data: " ++ d)
      = dataLines.map (fun d => "data: " ++ d) ++ [] from (List.append_nil _).symm,
    readEventLoop_mapData, List.nil_append]
  exact readEventLoop_eof_flush "" h

theorem c2_eof_flush_once_witness :
    (["payload"] : List String) ≠ []
    ∧ readEvent (["payload"].map (fun d => "data: " ++ d))
      = (.event (dispatchEvent ["payload"] ""), [])
    ∧ readEvent [] = (.eof, []) :=
  ⟨by decide, (c2_eof_flush_once ["payload"] "t" (by decide)).2.1,
    (c2_eof_flush_once ["payload"] "t" (by decide)).2.2⟩

/-- Claim C3: when the joined data payload is not valid JSON, the dispatched
event is returned with no error, RawData holds the exact accumulated bytes,
the structured fields Source/StepType/StepName stay empty, and Type comes only
from the SSE `event:` field (empty when no event field was recorded). -/
theorem c3_malformed_payload_raw_only (X : String) (ds rest : List String)
    (hds : ds ≠ []) (hparse : jsonParse (goJoin ds "\n") = none) :
    readEvent ((("event: " ++ X) :: ds.map (fun d => "data: " ++ d)) ++ "" :: rest)
      = (.event
          { type := X, Source := "", StepType := "", StepName := "",
            RawData := goJoin ds "\n" }, rest)
    ∧ readEvent (ds.map (fun d => "data: " ++ d) ++ "" :: rest)
      = (.event
          { type := "", Source := "", StepType := "", StepName := "",
            RawData := goJoin ds "\n" }, rest) := by
  constructor
  · rw [readEvent, List.cons_append, readEventLoop_eventLine, readEventLoop_mapData,
      List.nil_append, readEventLoop_blank_dispatch rest X hds,
      dispatchEvent_parse_fail ds X hparse]
  · rw [readEvent, readEventLoop_mapData, List.nil_append,
      readEventLoop_blank_dispatch rest "" hds, dispatchEvent_parse_fail ds "" hparse]

theorem c3_malformed_payload_raw_only_witness :
    (["not json"] : List String) ≠ []
    ∧ jsonParse (goJoin ["not json"] "\n") = none
    ∧ readEvent ((("event: " ++ "err") :: ["not json"].map (fun d => "data: " ++ d)) ++ "" :: [])
      = (.event
          { type := "err", Source := "", StepType := "", StepName := "",
            RawData := goJoin ["not json"] "\n" }, []) :=
  ⟨by decide, rfl,
    (c3_malformed_payload_raw_only "err" ["not json"] [] (by decide) rfl).1⟩

/-- Claim C4: a block of several `data:` lines has each `data: ` field prefix
stripped, the bare payloads kept in order, and the result joined with a
newline before the JSON decode is attempted; in particular the block
`data: {"a":` / `data: 1}` / blank decodes from the joined string `{"a":\n1}`,
which is valid JSON. -/
theorem c4_multiline_data_joined (ds rest : List String) (h2 : 2 ≤ ds.length) :
    readEvent (ds.map (fun d => "data: " ++ d) ++ "" :: rest)
      = (.event (dispatchEvent ds ""), rest)
    ∧ (dispatchEvent ds "").RawData = goJoin ds "\n"
    ∧ readEvent (("data: " ++ "\x7b\"a\":") :: ("data: " ++ "1\x7d") :: "" :: [])
      = (.event
          { type := "", Source := "", StepType := "", StepName := "",
            RawData := "\x7b\"a\":" ++ "\n" ++ "1\x7d" }, [])
    ∧ (jsonParse ("\x7b\"a\":" ++ "\n" ++ "1\x7d")).isSome = true := by
  have hds : ds ≠ [] := by
    intro h
    rw [h] at h2
    exact absurd h2 (by decide)
  refine ⟨?_, dispatchEvent_RawData ds "", by decide, by decide⟩
  rw [readEvent, readEventLoop_mapData, List.nil_append,
    readEventLoop_blank_dispatch rest "" hds]

theorem c4_multiline_data_joined_witness :
    2 ≤ (["\x7b\"a\":", "1\x7d"] : List String).length
    ∧ readEvent (["\x7b\"a\":", "1\x7d"].map (fun d => "data: " ++ d) ++ "" :: [])
      = (.event (dispatchEvent ["\x7b\"a\":", "1\x7d"] ""), []) :=
  ⟨by decide, (c4_multiline_data_joined ["\x7b\"a\":", "1\x7d"] [] (by decide)).1⟩

/-- Claim C10: a recorded `event:` field is not reset by a blank line that
dispatches nothing: after `event: X`, a blank line with no pending data, and
then a block of `data:` lines terminated by a blank line, ReadEvent returns
that later block's event with Type `X` — the override leaks across the
blank-line separator instead of being cleared. -/
theorem c10_event_type_leaks_across_blank (X : String) (ds rest : List String)
    (hX : X ≠ "") (hds : ds ≠ []) :
    readEvent (("event: " ++ X) :: "" :: (ds.map (fun d => "data: " ++ d) ++ "" :: rest))
      = (.event (dispatchEvent ds X), rest)
    ∧ (dispatchEvent ds X).type = X := by
  refine ⟨?_, dispatchEvent_type_override ds hX⟩
  rw [readEvent, readEventLoop_eventLine, readEventLoop_blank_skip,
    readEventLoop_mapData, List.nil_append, readEventLoop_blank_dispatch rest X hds]

theorem c10_event_type_leaks_across_blank_witness :
    ("X" : String) ≠ "" ∧ (["\x7b\x7d"] : List String) ≠ []
    ∧ readEvent (("event: " ++ "X") :: "" :: (["\x7b\x7d"].map (fun d => "data: " ++ d) ++ "" :: []))
      = (.event (dispatchEvent ["\x7b\x7d"] "X"), [])
    ∧ (dispatchEvent ["\x7b\x7d"] "X").type = "X" :=
  ⟨by decide, by decide,
    (c10_event_type_leaks_across_blank "X" ["\x7b\x7d"] [] (by decide) (by decide)).1,
    (c10_event_type_leaks_across_blank "X" ["\x7b\x7d"] [] (by decide) (by decide)).2⟩

/-- Helper for C5: the readLine loop consumes every chunk the buffered
primitive produces for one line and accumulates their concatenation, for any
starting accumulator. -/
theorem readLineLoop_chunkLine (bufSize : Nat) : ∀ (n : Nat) (l : List Char),
    l.length ≤ n → ∀ (acc : List Char) (rest : List ChunkOutcome),
    readLineLoop (chunkLine bufSize l ++ rest) acc
      = (.line (String.mk (acc ++ l)), rest) := by
  intro n
  induction n with
  | zero =>
    intro l hl acc rest
    have hnil : l = [] := List.eq_nil_of_length_eq_zero (Nat.le_zero.mp hl)
    subst hnil
    rw [chunkLine, if_pos (by simp)]
    simp [readLineLoop]
  | succ n ih =>
    intro l hl acc rest
    rw [chunkLine]
    split_ifs with hc
    · simp [readLineLoop]
    · rw [List.cons_append, readLineLoop, if_pos rfl]
      have h16 := Nat.le_max_right bufSize 16
      have hlen : (l.drop (max bufSize 16)).length ≤ n := by
        simp only [List.length_drop]
        omega
      rw [ih (l.drop (max bufSize 16)) hlen (acc ++ l.take (max bufSize 16)) rest,
        List.append_assoc, List.take_append_drop]

/-- Claim C5: for every line, including lines strictly longer than the
configured initial buffer size, readLine returns the complete line whole and
unmodified: each truncated chunk reported by the buffered primitive keeps the
loop accumulating, and the full concatenation is returned once a chunk is
reported complete — no line-length ceiling is imposed. -/
theorem c5_readLine_unbounded (bufSize : Nat) (s : String) (rest : List ChunkOutcome) :
    readLineLoop (chunkLine bufSize s.data ++ rest) [] = (.line s, rest) := by
  have h := readLineLoop_chunkLine bufSize s.data.length s.data (Nat.le_refl _) [] rest
  rw [List.nil_append] at h
  exact h

/-- Claim C6: with a non-positive timeout every read is a direct passthrough
of the underlying outcome; with a positive timeout a read during which no data
arrives for at least the window returns zero bytes and a distinguishable
timeout error (its message contains `read timeout`); and the window is
per-call, so after a read that delivers just before the deadline the next read
gets a fresh full window measured from its own start. -/
theorem c6_timeout_window_per_read :
    (∀ (timeout delay : Int) (u : ReadOutcome), timeout ≤ 0 →
      timeoutReaderRead timeout delay u = u)
    ∧ (∀ (timeout delay : Int) (u : ReadOutcome), 0 < timeout → timeout ≤ delay →
      timeoutReaderRead timeout delay u = { n := 0, err := some (timeoutErrMsg timeout) }
        ∧ goContains (timeoutErrMsg timeout) "read timeout" = true)
    ∧ (∀ (timeout eps : Int) (u1 u2 : ReadOutcome) (d2 : Int), 0 < eps →
      eps ≤ timeout → timeout ≤ d2 →
      runTimeoutReads timeout [(timeout - eps, u1), (d2, u2)]
        = [u1, { n := 0, err := some (timeoutErrMsg timeout) }]) := by
  refine ⟨fun t d u h => ?_, fun t d u h1 h2 => ⟨?_, ?_⟩, fun t e u1 u2 d2 h1 h2 h3 => ?_⟩
  · rw [timeoutReaderRead, if_pos h]
  · rw [timeoutReaderRead, if_neg (by omega), if_neg (by omega)]
  · simp only [goContains, timeoutErrMsg, String.data_append, decide_eq_true_eq]
    refine ⟨[], ": no data received within ".data ++ (toString t).data, ?_⟩
    rw [List.nil_append, ← List.append_assoc]
    congr 1
  · simp only [runTimeoutReads, List.map_cons, List.map_nil]
    rw [timeoutReaderRead, if_neg (by omega), if_pos (by omega)]
    rw [timeoutReaderRead, if_neg (by omega), if_neg (by omega)]

theorem c6_timeout_window_per_read_witness :
    timeoutReaderRead 5 7 { n := 3, err := none }
      = { n := 0, err := some (timeoutErrMsg 5) }
    ∧ runTimeoutReads 5 [(4, { n := 1, err := none }), (9, { n := 1, err := none })]
      = [{ n := 1, err := none }, { n := 0, err := some (timeoutErrMsg 5) }] :=
  ⟨(c6_timeout_window_per_read.2.1 5 7 { n := 3, err := none } (by decide) (by decide)).1,
    c6_timeout_window_per_read.2.2 5 1 { n := 1, err := none } { n := 1, err := none } 9
      (by decide) (by decide) (by decide)⟩

/-- Claim C7: a nil request, or a question/id that is empty or whitespace-only,
makes AnalyzeDataStream and CancelAnalyze fail at once with the validation
error; the network-call flag stays `false` (no I/O is performed) and no
session or response is produced. -/
theorem c7_validation_before_io :
    (∀ resp : HttpResponse, analyzeDataStream none resp = (.error .nilRequest, false))
    ∧ (∀ (r : DataAnalysisRequest) (resp : HttpResponse), goTrimSpace r.Question = "" →
      analyzeDataStream (some r) resp
        = (.error (.validation "question cannot be empty"), false))
    ∧ cancelAnalyze none = (.error .nilRequest, false)
    ∧ (∀ r : CancelAnalyzeRequest, goTrimSpace r.RequestID = "" →
      cancelAnalyze (some r)
        = (.error (.validation "request_id cannot be empty"), false)) := by
  refine ⟨fun resp => rfl, fun r resp h => ?_, rfl, fun r h => ?_⟩
  · simp only [analyzeDataStream]
    rw [if_pos h]
  · simp only [cancelAnalyze]
    rw [if_pos h]

theorem c7_validation_before_io_witness :
    goTrimSpace "  \t" = ""
    ∧ analyzeDataStream (some { Question := "  \t" })
        { statusCode := 200, headers := [], body := { content := "", closeErr := none } }
      = (.error (.validation "question cannot be empty"), false)
    ∧ goTrimSpace " " = ""
    ∧ cancelAnalyze (some { RequestID := " " })
      = (.error (.validation "request_id cannot be empty"), false) :=
  ⟨by decide,
    c7_validation_before_io.2.1 { Question := "  \t" }
      { statusCode := 200, headers := [], body := { content := "", closeErr := none } }
      (by decide),
    by decide,
    c7_validation_before_io.2.2.2 { RequestID := " " } (by decide)⟩

/-- Claim C8: for a validated request, a session comes back only from a 2xx
response whose Content-Type mentions `text/event-stream` or `text/plain`: a
non-2xx response yields the structured HTTP error carrying status and raw
body; a 2xx response with neither acceptable content type yields the
descriptive error that includes the body; and any returned session records
exactly the response body, headers, and status code. -/
theorem c8_response_gatekeeping (r : DataAnalysisRequest) (resp : HttpResponse)
    (hq : goTrimSpace r.Question ≠ "") :
    ((resp.statusCode < 200 ∨ 300 ≤ resp.statusCode) →
      analyzeDataStream (some r) resp
        = (.error (.httpError resp.statusCode resp.body.content), true))
    ∧ ((200 ≤ resp.statusCode ∧ resp.statusCode < 300) →
      goContains (headerGet resp.headers "Content-Type") "text/event-stream" = false →
      goContains (headerGet resp.headers "Content-Type") "text/plain" = false →
      analyzeDataStream (some r) resp
        = (.error (.contentTypeError
            ("unexpected content type: " ++ headerGet resp.headers "Content-Type"
              ++ ", body: " ++ resp.body.content)), true))
    ∧ (∀ s : DataAnalysisStream, (analyzeDataStream (some r) resp).1 = .ok s →
      (200 ≤ resp.statusCode ∧ resp.statusCode < 300
        ∧ (goContains (headerGet resp.headers "Content-Type") "text/event-stream" = true
            ∨ goContains (headerGet resp.headers "Content-Type") "text/plain" = true)
        ∧ s = { Body := some resp.body, Header := resp.headers,
                StatusCode := resp.statusCode })) := by
  refine ⟨fun hst => ?_, fun h2 hev hpl => ?_, fun s hs => ?_⟩
  · simp only [analyzeDataStream]
    rw [if_neg hq, if_pos hst]
  · simp only [analyzeDataStream]
    rw [if_neg hq, if_neg (by omega), if_pos ⟨hev, hpl⟩]
  · simp only [analyzeDataStream] at hs
    rw [if_neg hq] at hs
    by_cases hst : (resp.statusCode < 200 ∨ 300 ≤ resp.statusCode)
    · rw [if_pos hst] at hs
      exact absurd hs (by simp)
    · rw [if_neg hst] at hs
      by_cases hct : (goContains (headerGet resp.headers "Content-Type")
            "text/event-stream" = false
          ∧ goContains (headerGet resp.headers "Content-Type") "text/plain" = false)
      · rw [if_pos hct] at hs
        exact absurd hs (by simp)
      · rw [if_neg hct] at hs
        have hss : s
            = { Body := some resp.body, Header := resp.headers,
                StatusCode := resp.statusCode } := by
          have hinj := hs
          simp only [Except.ok.injEq] at hinj
          exact hinj.symm
        have hor : goContains (headerGet resp.headers "Content-Type")
              "text/event-stream" = true
            ∨ goContains (headerGet resp.headers "Content-Type") "text/plain" = true := by
          cases hbx : goContains (headerGet resp.headers "Content-Type")
              "text/event-stream" with
          | true => exact Or.inl rfl
          | false =>
            cases hby : goContains (headerGet resp.headers "Content-Type")
                "text/plain" with
            | true => exact Or.inr rfl
            | false => exact absurd ⟨hbx, hby⟩ hct
        exact ⟨by omega, by omega, hor, hss⟩

theorem c8_response_gatekeeping_witness :
    goTrimSpace "q" ≠ ""
    ∧ analyzeDataStream (some { Question := "q" })
        { statusCode := 404, headers := [],
          body := { content := "not found", closeErr := none } }
      = (.error (.httpError 404 "not found"), true) :=
  ⟨by decide,
    (c8_response_gatekeeping { Question := "q" }
        { statusCode := 404, headers := [],
          body := { content := "not found", closeErr := none } }
        (by decide)).1 (by decide)⟩

/-- Claim C9: Close on a stream session is total and returns nil in the nil
cases: a nil session, or a session whose body is already absent, close without
error; the timeout reader's Close is likewise a nil no-op when its underlying
stream is nil. -/
theorem c9_close_idempotent_nil_safe :
    DataAnalysisStream.Close none = none
    ∧ (∀ (hdr : List (String × String)) (sc : Nat),
      DataAnalysisStream.Close (some { Body := none, Header := hdr, StatusCode := sc })
        = none)
    ∧ (∀ t : Int, TimeoutReader.Close { reader := none, timeout := t } = none) :=
  ⟨rfl, fun _ _ => rfl, fun _ => rfl⟩

end MoiSdk
